import Mathlib

/-!
Verification development for the lawful-typeclasses repository.

The repository source under scrutiny is `src/classes.ts`, which exists in two
versions in the file: an earlier one built on `Left`/`Right` values from
`utils.ts` (embedded below in namespace `V1`) and a later one built on
`MaybeError` from `utils.ts` (embedded below in namespace `V2`).  The helper
modules `utils.ts`, `validators.ts` and `instances.ts` are not part of the
provided sources, so the types and operations they export (`MaybeError`,
`Left`/`Right`, `all`, `Validator`, `InstanceConstructor`) are modelled from
the specification, as marked on each definition.
-/

/-- Modelled from the spec: `instances.ts` is missing from the sources; the
engine only uses a candidate type's `name` for diagnostics, so an
`InstanceConstructor` is modelled as a carrier of its display name. -/
structure InstanceConstructor where
  name : String
deriving DecidableEq, Repr

/-- Modelled from the spec: `utils.ts` is missing from the sources.
`MaybeError` is the ValidationResult of the second (MaybeError-based) version:
a sum of `Success` (no payload) and `Failure` carrying the ordered sequence of
diagnostic messages. -/
inductive MaybeError where
  | success : MaybeError
  | error (messages : List String) : MaybeError
deriving DecidableEq, Repr

namespace MaybeError

/-- Modelled from the spec: `Failure` from one message. -/
def fail (message : String) : MaybeError := .error [message]

/-- Modelled from the spec: the `isFailure` predicate used for branching,
called `isError` in the source. -/
def isError : MaybeError → Bool
  | .success => false
  | .error _ => true

/-- Modelled from the spec: the conjunction operator.
Success and Success give Success; a lone Failure wins; Failure with Failure
concatenates the two message sequences preserving order. -/
def conjoin : MaybeError → MaybeError → MaybeError
  | .success, b => b
  | .error a, .success => .error a
  | .error a, .error b => .error (a ++ b)

/-- Modelled from the spec: folding `conjoin` over a list of results,
starting from `Success`, in order. -/
def foldConjoin (results : List MaybeError) : MaybeError :=
  results.foldl conjoin .success

theorem isError_conjoin (a b : MaybeError) :
    (conjoin a b).isError = (a.isError || b.isError) := by
  cases a <;> cases b <;> rfl

theorem conjoin_success (a : MaybeError) : conjoin a .success = a := by
  cases a <;> rfl

theorem success_conjoin (a : MaybeError) : conjoin .success a = a := rfl

theorem conjoin_assoc (a b c : MaybeError) :
    conjoin (conjoin a b) c = conjoin a (conjoin b c) := by
  cases a <;> cases b <;> cases c <;> simp [conjoin]

theorem isError_foldl (a : MaybeError) (l : List MaybeError) :
    (l.foldl conjoin a).isError = (a.isError || l.any isError) := by
  induction l generalizing a with
  | nil => simp
  | cons x xs ih =>
      simp only [List.foldl_cons, List.any_cons, ih, isError_conjoin]
      cases a.isError <;> cases x.isError <;> simp

theorem isError_foldConjoin (l : List MaybeError) :
    (foldConjoin l).isError = l.any isError := by
  simpa [foldConjoin] using isError_foldl .success l

/-- A result that is an error is an `error` with some message list. -/
theorem eq_error_of_isError {a : MaybeError} (h : a.isError = true) :
    ∃ ms, a = .error ms := by
  cases a with
  | success => simp [isError] at h
  | error ms => exact ⟨ms, rfl⟩

end MaybeError

/-- Modelled from the spec: the `check` capability of a Validator in the
MaybeError-based version (`validators.ts` is missing from the sources);
a Validator is polymorphic over the single capability
`check(candidateType) -> ValidationResult`. -/
structure Validator where
  check : InstanceConstructor → MaybeError

/-- Modelled from the spec: `all(validator...)` sequentially runs `check` on
each child against the same candidate type and folds all results with
`conjoin`, so every child's failures are surfaced together; zero children
always yield Success. -/
def all (validators : List Validator) : Validator :=
  ⟨fun inst => MaybeError.foldConjoin (validators.map (fun v => v.check inst))⟩

theorem all_nil_check (inst : InstanceConstructor) :
    (all []).check inst = MaybeError.success := rfl

namespace V2

/-- The `Class` of the MaybeError-based version of `src/classes.ts`:
a list of parent classes (`extends`), its own `laws` Validator, a display
`name` and a numeric `id` drawn from the module-level counter. -/
inductive Class where
  | mk (name : String) (id : Nat) (parents : List Class) (laws : Validator) : Class

def Class.name : Class → String
  | .mk n _ _ _ => n

def Class.id : Class → Nat
  | .mk _ i _ _ => i

def Class.parents : Class → List Class
  | .mk _ _ ps _ => ps

def Class.laws : Class → Validator
  | .mk _ _ _ l => l

mutual

/-- The `validate` method of the MaybeError-based version: conjoin the
results of validating every parent; if that conjunction is an error, return
it conjoined with a contextual failure message; otherwise return the result
of checking this definition's own laws. -/
def Class.validate : Class → InstanceConstructor → MaybeError
  | .mk name _ parents laws, instanceC =>
    let parentResults := MaybeError.foldConjoin (validateAll parents instanceC)
    if parentResults.isError then
      parentResults.conjoin
        (MaybeError.fail
          ("Class " ++ instanceC.name ++ " fails the prerequisites to be a " ++ name))
    else
      laws.check instanceC

/-- The list built by `this.parents.map((parent) => parent.validate(instance))`:
`validate` applied to each parent in declared order. -/
def validateAll : List Class → InstanceConstructor → List MaybeError
  | [], _ => []
  | p :: ps, instanceC => p.validate instanceC :: validateAll ps instanceC

end

theorem validateAll_eq_map_v2 (ps : List Class) (instanceC : InstanceConstructor) :
    validateAll ps instanceC = ps.map (fun p => p.validate instanceC) := by
  induction ps with
  | nil => rfl
  | cons p ps ih => rw [validateAll, ih, List.map_cons]

/-- The contextual message built by `validate` on a prerequisite failure. -/
def prereqMessage (c : Class) (instanceC : InstanceConstructor) : String :=
  "Class " ++ instanceC.name ++ " fails the prerequisites to be a " ++ c.name

/-- The intermediate result of the prerequisite stage of `validate`. -/
def Class.parentResults (c : Class) (instanceC : InstanceConstructor) : MaybeError :=
  MaybeError.foldConjoin (c.parents.map (fun p => p.validate instanceC))

theorem validate_eq_v2 (c : Class) (instanceC : InstanceConstructor) :
    c.validate instanceC =
      if (c.parentResults instanceC).isError then
        (c.parentResults instanceC).conjoin (MaybeError.fail (prereqMessage c instanceC))
      else
        c.laws.check instanceC := by
  cases c with
  | mk n i ps l =>
      rw [Class.validate]
      simp only [Class.parentResults, Class.parents, Class.laws, Class.name,
        prereqMessage, validateAll_eq_map_v2]

/-- An instrumented rendering of `validate` that additionally records, in the
second component, whether the definition's own `laws.check` was invoked.  The
control flow mirrors `validate`: the source returns from the prerequisite
branch before ever reaching `this.laws.check(instance)`. -/
def Class.validateRunsLaws (c : Class) (instanceC : InstanceConstructor) :
    MaybeError × Bool :=
  let parentResults := c.parentResults instanceC
  if parentResults.isError then
    (parentResults.conjoin (MaybeError.fail (prereqMessage c instanceC)), false)
  else
    (c.laws.check instanceC, true)

theorem validateRunsLaws_fst_v2 (c : Class) (instanceC : InstanceConstructor) :
    (c.validateRunsLaws instanceC).1 = c.validate instanceC := by
  rw [validate_eq_v2, Class.validateRunsLaws]
  by_cases h : (c.parentResults instanceC).isError <;> simp [h]

end V2

namespace V2

/-- The `ClassOptions` of the MaybeError-based version: all three fields are
optional in the source. -/
structure ClassOptions where
  name : Option String := none
  «extends» : Option (List Class) := none
  laws : Option Validator := none

/-- The `Class` constructor of the MaybeError-based version, with the global
mutable `idCounter` made explicit: `extends` defaults to `[]`, `laws`
defaults to `all()`, the stored name is `name || 'Unnamed'` (so a missing or
empty name becomes the placeholder), the id is the current counter value and
the counter is post-incremented. -/
def Class.construct (options : ClassOptions) (idCounter : Nat) : Class × Nat :=
  let parents := options.«extends».getD []
  let laws := options.laws.getD (all [])
  let name :=
    match options.name with
    | none => "Unnamed"
    | some s => if s = "" then "Unnamed" else s
  (Class.mk name idCounter parents laws, idCounter + 1)

/-- Sequentially running the constructor on a list of options, threading the
module-level counter through, as any sequence of `new Class(...)` calls in
one process does. -/
def constructAll : List ClassOptions → Nat → List Class
  | [], _ => []
  | o :: os, idCounter =>
    let next := Class.construct o idCounter
    next.1 :: constructAll os next.2

theorem construct_id (o : ClassOptions) (k : Nat) :
    (Class.construct o k).1.id = k ∧ (Class.construct o k).2 = k + 1 := by
  constructor <;> rfl

theorem constructAll_ids (os : List ClassOptions) (k : Nat) :
    (constructAll os k).map Class.id = List.range' k os.length := by
  induction os generalizing k with
  | nil => rfl
  | cons o os ih =>
      rw [constructAll, List.map_cons, ih, List.length_cons, List.range']
      rfl

end V2

namespace V1

/-- Modelled from the spec: the ValidationResult of the first version of
`src/classes.ts`, built from the `Left`/`Right` sum of the missing
`utils.ts`: `Right` is success, `Left` carries one diagnostic string. -/
inductive ValidationResult where
  | Right : ValidationResult
  | Left (value : String) : ValidationResult
deriving DecidableEq, Repr

/-- The `result instanceof Left` test used by `validate`. -/
def ValidationResult.isLeft : ValidationResult → Bool
  | .Right => false
  | .Left _ => true

/-- The `.value` projection read from results already known to be `Left`;
`Right` carries no value, so it is rendered as the empty string. -/
def ValidationResult.value : ValidationResult → String
  | .Right => ""
  | .Left v => v

/-- Modelled from the spec: the Validator of the first version, polymorphic
over the single capability `check(candidateType) -> ValidationResult`. -/
structure Validator where
  check : InstanceConstructor → ValidationResult

/-- Modelled from the spec: conjunction on the `Left`/`Right` representation;
Failure with Failure combines the two diagnostics preserving order (the
version joins message blocks with a blank line). -/
def ValidationResult.conjoin : ValidationResult → ValidationResult → ValidationResult
  | .Right, b => b
  | .Left a, .Right => .Left a
  | .Left a, .Left b => .Left (a ++ "\n\n" ++ b)

/-- Modelled from the spec: `all(validator...)` for the first version folds
the children's `check` results with the conjunction; zero children always
yield success. -/
def all (validators : List Validator) : Validator :=
  ⟨fun inst =>
    (validators.map (fun v => v.check inst)).foldl ValidationResult.conjoin .Right⟩

/-- The `Class` of the first (Left/Right-based) version of `src/classes.ts`:
parents, laws and a display name; this version has no id. -/
inductive Class where
  | mk (name : String) (parents : List Class) (laws : Validator) : Class

def Class.name : Class → String
  | .mk n _ _ => n

def Class.parents : Class → List Class
  | .mk _ ps _ => ps

def Class.laws : Class → Validator
  | .mk _ _ l => l

mutual

/-- The `validate` method of the first version: map `validate` over every
parent, keep the `Left` results; if any exist, return one `Left` whose text
is the contextual header followed by the parents' messages joined with blank
lines; otherwise return the result of checking this definition's own laws. -/
def Class.validate : Class → InstanceConstructor → ValidationResult
  | .mk name parents laws, instanceC =>
    let parentLefts :=
      (validateAll parents instanceC).filter ValidationResult.isLeft
    if parentLefts.length ≠ 0 then
      .Left
        ("Class " ++ instanceC.name ++ " fails the prerequisites to be a " ++ name
          ++ "\n\n"
          ++ String.intercalate "\n\n" (parentLefts.map ValidationResult.value))
    else
      laws.check instanceC

/-- The list built by `this.parents.map((parent) => parent.validate(instance))`
in the first version. -/
def validateAll : List Class → InstanceConstructor → List ValidationResult
  | [], _ => []
  | p :: ps, instanceC => p.validate instanceC :: validateAll ps instanceC

end

theorem validateAll_eq_map_v1 (ps : List Class) (instanceC : InstanceConstructor) :
    validateAll ps instanceC = ps.map (fun p => p.validate instanceC) := by
  induction ps with
  | nil => rfl
  | cons p ps ih => rw [validateAll, ih, List.map_cons]

/-- The `Left` results among the parents' validation results. -/
def Class.parentLefts (c : Class) (instanceC : InstanceConstructor) :
    List ValidationResult :=
  ((c.parents.map (fun p => p.validate instanceC)).filter ValidationResult.isLeft)

theorem validate_eq_v1 (c : Class) (instanceC : InstanceConstructor) :
    c.validate instanceC =
      if (c.parentLefts instanceC).length ≠ 0 then
        .Left
          ("Class " ++ instanceC.name ++ " fails the prerequisites to be a " ++ c.name
            ++ "\n\n"
            ++ String.intercalate "\n\n" ((c.parentLefts instanceC).map ValidationResult.value))
      else
        c.laws.check instanceC := by
  cases c with
  | mk n ps l =>
      rw [Class.validate]
      simp only [Class.parentLefts, Class.parents, Class.laws, Class.name,
        validateAll_eq_map_v1]

/-- An instrumented rendering of the first version's `validate` recording, in
the second component, whether the definition's own `laws.check` was invoked. -/
def Class.validateRunsLaws (c : Class) (instanceC : InstanceConstructor) :
    ValidationResult × Bool :=
  if (c.parentLefts instanceC).length ≠ 0 then
    (.Left
      ("Class " ++ instanceC.name ++ " fails the prerequisites to be a " ++ c.name
        ++ "\n\n"
        ++ String.intercalate "\n\n" ((c.parentLefts instanceC).map ValidationResult.value)),
      false)
  else
    (c.laws.check instanceC, true)

theorem validateRunsLaws_fst_v1 (c : Class) (instanceC : InstanceConstructor) :
    (c.validateRunsLaws instanceC).1 = c.validate instanceC := by
  rw [validate_eq_v1, Class.validateRunsLaws]
  by_cases h : (c.parentLefts instanceC).length ≠ 0 <;> simp [h]

/-- The `ClassOptions` of the first version (no id is involved). -/
structure ClassOptions where
  name : Option String := none
  «extends» : Option (List Class) := none
  laws : Option Validator := none

/-- The `Class` constructor of the first version: `extends` defaults to `[]`,
`laws` defaults to `all()`, the stored name is `name || 'Unnamed'`. -/
def Class.construct (options : ClassOptions) : Class :=
  let parents := options.«extends».getD []
  let laws := options.laws.getD (all [])
  let name :=
    match options.name with
    | none => "Unnamed"
    | some s => if s = "" then "Unnamed" else s
  Class.mk name parents laws

end V1

section Helpers

theorem filter_length_ne_zero_iff_any {α : Type} (l : List α) (p : α → Bool) :
    ((l.filter p).length ≠ 0) ↔ l.any p = true := by
  simp [List.length_eq_zero, List.filter_eq_nil_iff, List.any_eq_true]

/-- Prerequisite failure makes the MaybeError-based `validate` fail. -/
theorem V2.validate_isError_of_parent {c p : V2.Class} {instanceC : InstanceConstructor}
    (hp : p ∈ c.parents) (hfail : (p.validate instanceC).isError = true) :
    (c.validate instanceC).isError = true := by
  have hpr : (c.parentResults instanceC).isError = true := by
    rw [V2.Class.parentResults, MaybeError.isError_foldConjoin]
    exact List.any_eq_true.mpr
      ⟨p.validate instanceC, List.mem_map_of_mem _ hp, hfail⟩
  rw [V2.validate_eq_v2, hpr, if_pos rfl, MaybeError.isError_conjoin, hpr, Bool.true_or]

/-- Prerequisite failure makes the Left/Right-based `validate` fail. -/
theorem V1.validate_isLeft_of_parent {c p : V1.Class} {instanceC : InstanceConstructor}
    (hp : p ∈ c.parents) (hfail : (p.validate instanceC).isLeft = true) :
    (c.validate instanceC).isLeft = true := by
  have hlen : (c.parentLefts instanceC).length ≠ 0 := by
    rw [V1.Class.parentLefts, filter_length_ne_zero_iff_any]
    exact List.any_eq_true.mpr
      ⟨p.validate instanceC, List.mem_map_of_mem _ hp, hfail⟩
  rw [V1.validate_eq_v1, if_pos hlen]
  rfl

end Helpers

section Samples

/-- A concrete class whose own laws always fail with message `p fails`. -/
def sampleP : V2.Class := .mk "P" 0 [] ⟨fun _ => .error ["p fails"]⟩

/-- A concrete class extending `sampleP` whose own laws always fail with
message `d fails`. -/
def sampleD : V2.Class := .mk "D" 1 [sampleP] ⟨fun _ => .error ["d fails"]⟩

/-- A concrete class extending `sampleP` whose own laws always succeed. -/
def sampleDGoodLaws : V2.Class := .mk "DGood" 2 [sampleP] ⟨fun _ => .success⟩

/-- A concrete class with no parents whose laws fail with a message that
mentions no names at all. -/
def sampleNoCtx : V2.Class := .mk "Foo" 3 [] ⟨fun _ => .error ["bad"]⟩

/-- A concrete candidate type named `X`. -/
def instX : InstanceConstructor := ⟨"X"⟩

/-- A concrete candidate type named `Bar`. -/
def instBar : InstanceConstructor := ⟨"Bar"⟩

theorem sampleP_validate : sampleP.validate instX = .error ["p fails"] := by
  rw [V2.validate_eq_v2]
  simp [V2.Class.parentResults, sampleP, MaybeError.foldConjoin, MaybeError.isError,
    V2.Class.parents, V2.Class.laws]

theorem sampleD_parentResults :
    sampleD.parentResults instX = .error ["p fails"] := by
  simp only [V2.Class.parentResults, sampleD, V2.Class.parents, List.map_cons,
    List.map_nil, sampleP_validate]
  rfl

theorem sampleDGoodLaws_parentResults :
    sampleDGoodLaws.parentResults instX = .error ["p fails"] := by
  simp only [V2.Class.parentResults, sampleDGoodLaws, V2.Class.parents, List.map_cons,
    List.map_nil, sampleP_validate]
  rfl

end Samples

/-- Claim C6: `conjoin` is associative on ValidationResult, has Success as a
two-sided identity, and combines Failure with Failure by concatenating the
message sequences in order, so ValidationResult with `conjoin` is a monoid. -/
theorem conjoin_monoid :
    (∀ a b c : MaybeError,
      MaybeError.conjoin (MaybeError.conjoin a b) c
        = MaybeError.conjoin a (MaybeError.conjoin b c)) ∧
    (∀ x : MaybeError, MaybeError.conjoin .success x = x) ∧
    (∀ x : MaybeError, MaybeError.conjoin x .success = x) ∧
    (∀ xs ys : List String,
      MaybeError.conjoin (.error xs) (.error ys) = .error (xs ++ ys)) :=
  ⟨MaybeError.conjoin_assoc, MaybeError.success_conjoin, MaybeError.conjoin_success,
    fun _ _ => rfl⟩

/-- Claim C2: in both versions of `validate`, a failing prerequisite forces
the overall result to be a failure, whatever the definition's own laws say. -/
theorem prereq_failure_not_masked :
    (∀ (c p : V2.Class) (instanceC : InstanceConstructor),
      p ∈ c.parents → (p.validate instanceC).isError = true →
      (c.validate instanceC).isError = true) ∧
    (∀ (c p : V1.Class) (instanceC : InstanceConstructor),
      p ∈ c.parents → (p.validate instanceC).isLeft = true →
      (c.validate instanceC).isLeft = true) :=
  ⟨fun _ _ _ hp hf => V2.validate_isError_of_parent hp hf,
   fun _ _ _ hp hf => V1.validate_isLeft_of_parent hp hf⟩

/-- Witness for claim C2: `sampleDGoodLaws` has always-succeeding laws, its
prerequisite `sampleP` fails on `instX`, and its `validate` fails. -/
theorem prereq_failure_not_masked_witness :
    sampleP ∈ sampleDGoodLaws.parents ∧
    (sampleP.validate instX).isError = true ∧
    (sampleDGoodLaws.validate instX).isError = true :=
  have h1 : sampleP ∈ sampleDGoodLaws.parents := by
    simp [sampleDGoodLaws, V2.Class.parents]
  have h2 : (sampleP.validate instX).isError = true := by
    rw [sampleP_validate]; rfl
  ⟨h1, h2, prereq_failure_not_masked.1 sampleDGoodLaws sampleP instX h1 h2⟩

theorem sampleD_validate :
    sampleD.validate instX
      = .error ["p fails", "Class X fails the prerequisites to be a D"] := by
  rw [V2.validate_eq_v2, sampleD_parentResults]
  rfl

/-- Counterexample for claim C1: on `sampleD` (whose prerequisite fails and
whose own laws fail with the message `d fails`), `validate` never invokes the
definition's own laws, and its result is not the conjunction of the
prerequisite result with the own-laws result. -/
theorem validate_conjoins_own_laws_counterexample :
    (sampleD.validateRunsLaws instX).2 = false ∧
    sampleD.validate instX ≠
      MaybeError.conjoin (sampleD.parentResults instX) (sampleD.laws.check instX) := by
  constructor
  · rw [V2.Class.validateRunsLaws]
    rw [sampleD_parentResults]
    rfl
  · rw [sampleD_validate, sampleD_parentResults]
    have hlaws : sampleD.laws.check instX = .error ["d fails"] := rfl
    rw [hlaws]
    decide

/-- Claim C1 as amended: in both versions, `validate` runs the definition's
own `laws.check` only when the prerequisite stage succeeds; when the
prerequisite stage fails, `validate` returns the prerequisite failure
(conjoined with a contextual message in the MaybeError-based version, as a
single contextual `Left` in the Left/Right-based version) without running the
definition's own laws. -/
theorem validate_skips_laws_on_prereq_failure :
    (∀ (c : V2.Class) (instanceC : InstanceConstructor),
      (c.validateRunsLaws instanceC).1 = c.validate instanceC ∧
      (c.validateRunsLaws instanceC).2 = !(c.parentResults instanceC).isError ∧
      c.validate instanceC =
        (if (c.parentResults instanceC).isError then
          (c.parentResults instanceC).conjoin
            (MaybeError.fail (V2.prereqMessage c instanceC))
        else c.laws.check instanceC)) ∧
    (∀ (c : V1.Class) (instanceC : InstanceConstructor),
      (c.validateRunsLaws instanceC).1 = c.validate instanceC ∧
      (c.validateRunsLaws instanceC).2 = decide ((c.parentLefts instanceC).length = 0) ∧
      c.validate instanceC =
        (if (c.parentLefts instanceC).length ≠ 0 then
          .Left
            ("Class " ++ instanceC.name ++ " fails the prerequisites to be a " ++ c.name
              ++ "\n\n"
              ++ String.intercalate "\n\n"
                  ((c.parentLefts instanceC).map V1.ValidationResult.value))
        else c.laws.check instanceC)) := by
  constructor
  · intro c instanceC
    refine ⟨V2.validateRunsLaws_fst_v2 c instanceC, ?_, V2.validate_eq_v2 c instanceC⟩
    rw [V2.Class.validateRunsLaws]
    by_cases h : (c.parentResults instanceC).isError <;> simp [h]
  · intro c instanceC
    refine ⟨V1.validateRunsLaws_fst_v1 c instanceC, ?_, V1.validate_eq_v1 c instanceC⟩
    rw [V1.Class.validateRunsLaws]
    by_cases h : (c.parentLefts instanceC).length = 0
    · simp [h]
    · simp [h]

/-- Claim C4: in both versions, `validate` evaluates `validate` on each of the
class's prerequisites exactly once, in declared order (the result list has one
entry per prerequisite, positionally the validation of that prerequisite, so a
failing earlier prerequisite never suppresses a later one), and the
intermediate prerequisite outcome is built from the full result list — by
`foldConjoin` in the MaybeError-based version, and by keeping every `Left`
result in order in the Left/Right-based version. -/
theorem prereqs_validated_in_order :
    (∀ (c : V2.Class) (instanceC : InstanceConstructor),
      (V2.validateAll c.parents instanceC).length = c.parents.length ∧
      (∀ i : Nat,
        (V2.validateAll c.parents instanceC)[i]?
          = (c.parents[i]?).map (fun p => p.validate instanceC)) ∧
      c.parentResults instanceC
        = MaybeError.foldConjoin (V2.validateAll c.parents instanceC)) ∧
    (∀ (c : V1.Class) (instanceC : InstanceConstructor),
      (V1.validateAll c.parents instanceC).length = c.parents.length ∧
      (∀ i : Nat,
        (V1.validateAll c.parents instanceC)[i]?
          = (c.parents[i]?).map (fun p => p.validate instanceC)) ∧
      c.parentLefts instanceC
        = (V1.validateAll c.parents instanceC).filter V1.ValidationResult.isLeft) := by
  constructor
  · intro c instanceC
    rw [V2.validateAll_eq_map_v2]
    exact ⟨List.length_map _ _, fun i => List.getElem?_map _ _ _, rfl⟩
  · intro c instanceC
    rw [V1.validateAll_eq_map_v1]
    exact ⟨List.length_map _ _, fun i => List.getElem?_map _ _ _, rfl⟩

/-- Claim C5: in both versions, constructing a Class with the `laws` option
omitted stores the zero-child validator `all()`, whose check always succeeds;
a Class with no prerequisites (omitted or given as the empty list) and omitted
laws therefore validates any candidate type successfully. -/
theorem omitted_laws_default_succeeds :
    (∀ (nm : Option String) (ext : Option (List V2.Class)) (k : Nat),
      (V2.Class.construct ⟨nm, ext, none⟩ k).1.laws = all []) ∧
    (∀ instanceC, (all []).check instanceC = MaybeError.success) ∧
    (∀ (nm : Option String) (k : Nat) (instanceC : InstanceConstructor),
      (V2.Class.construct ⟨nm, none, none⟩ k).1.validate instanceC = .success ∧
      (V2.Class.construct ⟨nm, some [], none⟩ k).1.validate instanceC = .success) ∧
    (∀ (nm : Option String) (ext : Option (List V1.Class)),
      (V1.Class.construct ⟨nm, ext, none⟩).laws = V1.all []) ∧
    (∀ (nm : Option String) (instanceC : InstanceConstructor),
      (V1.Class.construct ⟨nm, none, none⟩).validate instanceC = .Right ∧
      (V1.Class.construct ⟨nm, some [], none⟩).validate instanceC = .Right) := by
  refine ⟨fun nm ext k => rfl, fun instanceC => rfl, ?_, fun nm ext => rfl, ?_⟩
  · intro nm k instanceC
    constructor <;>
      · rw [V2.validate_eq_v2]
        simp [V2.Class.parentResults, V2.Class.construct, V2.Class.parents,
          V2.Class.laws, MaybeError.foldConjoin, MaybeError.isError, all]
  · intro nm instanceC
    constructor <;>
      · rw [V1.validate_eq_v1]
        simp [V1.Class.parentLefts, V1.Class.construct, V1.Class.parents,
          V1.Class.laws, V1.all]

theorem sampleNoCtx_validate : sampleNoCtx.validate instBar = .error ["bad"] := by
  rw [V2.validate_eq_v2]
  simp [V2.Class.parentResults, sampleNoCtx, MaybeError.foldConjoin, MaybeError.isError,
    V2.Class.parents, V2.Class.laws]

/-- Counterexample for claim C3: `sampleNoCtx` (named `Foo`, no prerequisites,
laws failing with the bare message `bad`) yields a Failure on the candidate
named `Bar` whose only message contains neither the candidate type's name nor
the definition's name. -/
theorem failure_message_names_counterexample :
    (sampleNoCtx.validate instBar).isError = true ∧
    sampleNoCtx.validate instBar = .error ["bad"] ∧
    sampleNoCtx.name = "Foo" ∧ instBar.name = "Bar" ∧
    ¬ List.IsInfix sampleNoCtx.name.data "bad".data ∧
    ¬ List.IsInfix instBar.name.data "bad".data := by
  refine ⟨?_, sampleNoCtx_validate, rfl, rfl, ?_, ?_⟩
  · rw [sampleNoCtx_validate]; rfl
  · decide
  · decide

/-- The contextual header of a prerequisite failure in the first version. -/
def V1.prereqHeader (c : V1.Class) (instanceC : InstanceConstructor) : String :=
  "Class " ++ instanceC.name ++ " fails the prerequisites to be a " ++ c.name

theorem isInfix_second (a b c d : String) : List.IsInfix b.data (a ++ b ++ c ++ d).data :=
  ⟨a.data, c.data ++ d.data, by simp [String.data_append, List.append_assoc]⟩

theorem isInfix_fourth (a b c d : String) : List.IsInfix d.data (a ++ b ++ c ++ d).data :=
  ⟨a.data ++ b.data ++ c.data, [], by simp [String.data_append, List.append_assoc]⟩

/-- Claim C3 as amended: in both versions, a Failure caused by prerequisite
failure carries a contextual message containing both the candidate type's
name and this definition's name (in the MaybeError-based version it is
appended after the prerequisite messages; in the Left/Right-based version it
heads the single `Left` text); but a Failure arising from the definition's
own laws while all prerequisites pass is returned exactly as `laws.check`
produced it, with no contextual message added. -/
theorem failure_message_names_amended :
    (∀ (c : V2.Class) (instanceC : InstanceConstructor) (ms : List String),
      c.parentResults instanceC = .error ms →
      (c.validate instanceC = .error (ms ++ [V2.prereqMessage c instanceC]) ∧
        List.IsInfix instanceC.name.data (V2.prereqMessage c instanceC).data ∧
        List.IsInfix c.name.data (V2.prereqMessage c instanceC).data)) ∧
    (∀ (c : V2.Class) (instanceC : InstanceConstructor),
      (c.parentResults instanceC).isError = false →
      c.validate instanceC = c.laws.check instanceC) ∧
    (∀ (c : V1.Class) (instanceC : InstanceConstructor),
      (c.parentLefts instanceC).length ≠ 0 →
      ∃ rest : String,
        c.validate instanceC = .Left (V1.prereqHeader c instanceC ++ rest) ∧
        List.IsInfix instanceC.name.data (V1.prereqHeader c instanceC).data ∧
        List.IsInfix c.name.data (V1.prereqHeader c instanceC).data) ∧
    (∀ (c : V1.Class) (instanceC : InstanceConstructor),
      (c.parentLefts instanceC).length = 0 →
      c.validate instanceC = c.laws.check instanceC) := by
  refine ⟨?_, ?_, ?_, ?_⟩
  · intro c instanceC ms h
    refine ⟨?_, ?_, ?_⟩
    · have hiserr : (c.parentResults instanceC).isError = true := by rw [h]; rfl
      rw [V2.validate_eq_v2, if_pos hiserr, h]
      rfl
    · simp only [V2.prereqMessage]
      exact isInfix_second "Class " instanceC.name " fails the prerequisites to be a " c.name
    · simp only [V2.prereqMessage]
      exact isInfix_fourth "Class " instanceC.name " fails the prerequisites to be a " c.name
  · intro c instanceC h
    rw [V2.validate_eq_v2, if_neg (by rw [h]; exact Bool.false_ne_true)]
  · intro c instanceC h
    refine ⟨"\n\n" ++ String.intercalate "\n\n"
        ((c.parentLefts instanceC).map V1.ValidationResult.value), ?_, ?_, ?_⟩
    · rw [V1.validate_eq_v1, if_pos h, V1.prereqHeader]
      simp [String.ext_iff, String.data_append, List.append_assoc]
    · simp only [V1.prereqHeader]
      exact isInfix_second "Class " instanceC.name " fails the prerequisites to be a " c.name
    · simp only [V1.prereqHeader]
      exact isInfix_fourth "Class " instanceC.name " fails the prerequisites to be a " c.name
  · intro c instanceC h
    rw [V1.validate_eq_v1, if_neg (by simp [h])]

/-- Witness for claim C3's amended theorem: on `sampleD`, whose prerequisite
stage fails with message list `[p fails]`, `validate` appends the contextual
message, which contains both the candidate's name and the class name. -/
theorem failure_message_names_amended_witness :
    sampleD.validate instX = .error (["p fails"] ++ [V2.prereqMessage sampleD instX]) ∧
    List.IsInfix instX.name.data (V2.prereqMessage sampleD instX).data ∧
    List.IsInfix sampleD.name.data (V2.prereqMessage sampleD instX).data :=
  failure_message_names_amended.1 sampleD instX ["p fails"] sampleD_parentResults

/-- Claim C7: the module-level counter gives every constructed Class a fresh
id: a construction at counter `k` stores id `k` and leaves the counter at
`k + 1`, any sequence of constructions yields the strictly increasing id
sequence `k, k + 1, ...`, hence pairwise distinct ids whatever the options
(in particular whatever the names), and two back-to-back constructions always
get different ids. -/
theorem fresh_id_per_construction :
    (∀ (o : V2.ClassOptions) (k : Nat),
      (V2.Class.construct o k).1.id = k ∧ (V2.Class.construct o k).2 = k + 1) ∧
    (∀ (os : List V2.ClassOptions) (k : Nat),
      (V2.constructAll os k).map V2.Class.id = List.range' k os.length ∧
      ((V2.constructAll os k).map V2.Class.id).Pairwise (· < ·) ∧
      (V2.constructAll os k).Pairwise (fun a b => a.id ≠ b.id)) ∧
    (∀ (o1 o2 : V2.ClassOptions) (k : Nat),
      (V2.Class.construct o1 k).1.id
        ≠ (V2.Class.construct o2 ((V2.Class.construct o1 k).2)).1.id) := by
  refine ⟨V2.construct_id, ?_, ?_⟩
  · intro os k
    have hids := V2.constructAll_ids os k
    have hlt : ((V2.constructAll os k).map V2.Class.id).Pairwise (· < ·) := by
      rw [hids]; exact List.pairwise_lt_range' k os.length
    refine ⟨hids, hlt, ?_⟩
    have := (List.pairwise_map).mp hlt
    exact this.imp (fun h => Nat.ne_of_lt h)
  · intro o1 o2 k
    have h1 : (V2.Class.construct o1 k).1.id = k := rfl
    have h2 : (V2.Class.construct o2 ((V2.Class.construct o1 k).2)).1.id = k + 1 := rfl
    rw [h1, h2]
    omega

def V2.Class.withName : V2.Class → String → V2.Class
  | .mk _ i ps l, n => .mk n i ps l

def V1.Class.withName : V1.Class → String → V1.Class
  | .mk _ ps l, n => .mk n ps l

theorem V2.withName_parents_v2 (c : V2.Class) (n : String) :
    (c.withName n).parents = c.parents := by
  cases c; rfl

theorem V2.withName_laws_v2 (c : V2.Class) (n : String) :
    (c.withName n).laws = c.laws := by
  cases c; rfl

theorem V1.withName_parents_v1 (c : V1.Class) (n : String) :
    (c.withName n).parents = c.parents := by
  cases c; rfl

theorem V1.withName_laws_v1 (c : V1.Class) (n : String) :
    (c.withName n).laws = c.laws := by
  cases c; rfl

/-- Claim C8: in both versions, an omitted name is stored as the placeholder
`Unnamed`, and the stored name has no influence on whether `validate`
succeeds or fails (it only appears inside diagnostic messages). -/
theorem name_placeholder_and_diagnostic_only :
    (∀ (ext : Option (List V2.Class)) (laws : Option Validator) (k : Nat),
      (V2.Class.construct ⟨none, ext, laws⟩ k).1.name = "Unnamed") ∧
    (∀ (ext : Option (List V1.Class)) (laws : Option V1.Validator),
      (V1.Class.construct ⟨none, ext, laws⟩).name = "Unnamed") ∧
    (∀ (c : V2.Class) (n : String) (instanceC : InstanceConstructor),
      ((c.withName n).validate instanceC).isError = (c.validate instanceC).isError) ∧
    (∀ (c : V1.Class) (n : String) (instanceC : InstanceConstructor),
      ((c.withName n).validate instanceC).isLeft = (c.validate instanceC).isLeft) := by
  refine ⟨fun ext laws k => rfl, fun ext laws => rfl, ?_, ?_⟩
  · intro c n instanceC
    have hpr : (c.withName n).parentResults instanceC = c.parentResults instanceC := by
      rw [V2.Class.parentResults, V2.Class.parentResults, V2.withName_parents_v2]
    rw [V2.validate_eq_v2, V2.validate_eq_v2, hpr, V2.withName_laws_v2]
    by_cases h : (c.parentResults instanceC).isError
    · rw [if_pos h, if_pos h, MaybeError.isError_conjoin, MaybeError.isError_conjoin]
      simp [MaybeError.fail, MaybeError.isError]
    · rw [if_neg h, if_neg h]
  · intro c n instanceC
    have hpl : (c.withName n).parentLefts instanceC = c.parentLefts instanceC := by
      rw [V1.Class.parentLefts, V1.Class.parentLefts, V1.withName_parents_v1]
    rw [V1.validate_eq_v1, V1.validate_eq_v1, hpl, V1.withName_laws_v1]
    by_cases h : (c.parentLefts instanceC).length ≠ 0
    · rw [if_pos h, if_pos h]; rfl
    · rw [if_neg h, if_neg h]

/-- Claim C10: in both versions, a name given as the empty string (the only
falsy string value, besides leaving the field undefined) is also replaced by
the placeholder `Unnamed`, and the stored name of a constructed Class is
never the empty string. -/
theorem empty_name_becomes_placeholder :
    (∀ (ext : Option (List V2.Class)) (laws : Option Validator) (k : Nat),
      (V2.Class.construct ⟨some "", ext, laws⟩ k).1.name = "Unnamed" ∧
      (V2.Class.construct ⟨none, ext, laws⟩ k).1.name = "Unnamed") ∧
    (∀ (ext : Option (List V1.Class)) (laws : Option V1.Validator),
      (V1.Class.construct ⟨some "", ext, laws⟩).name = "Unnamed" ∧
      (V1.Class.construct ⟨none, ext, laws⟩).name = "Unnamed") ∧
    (∀ (o : V2.ClassOptions) (k : Nat), (V2.Class.construct o k).1.name ≠ "") ∧
    (∀ (o : V1.ClassOptions), (V1.Class.construct o).name ≠ "") := by
  refine ⟨fun ext laws k => ⟨rfl, rfl⟩, fun ext laws => ⟨rfl, rfl⟩, ?_, ?_⟩
  · intro o k
    cases o with
    | mk nm ext laws =>
        cases nm with
        | none => simp [V2.Class.construct, V2.Class.name]
        | some s =>
            by_cases h : s = "" <;>
              simp [V2.Class.construct, V2.Class.name, h]
  · intro o
    cases o with
    | mk nm ext laws =>
        cases nm with
        | none => simp [V1.Class.construct, V1.Class.name]
        | some s =>
            by_cases h : s = "" <;>
              simp [V1.Class.construct, V1.Class.name, h]

/-- The outcome-preserving correspondence between a Class of the first
(Left/Right-based) version and a Class of the second (MaybeError-based)
version: the parent lists correspond pointwise and the two laws validators
classify every candidate type identically as success or failure. -/
inductive ClassRel : V1.Class → V2.Class → Prop where
  | mk (n1 : String) (ps1 : List V1.Class) (l1 : V1.Validator)
      (n2 : String) (i : Nat) (ps2 : List V2.Class) (l2 : Validator)
      (hps : List.Forall₂ ClassRel ps1 ps2)
      (hl : ∀ instanceC : InstanceConstructor,
        (l1.check instanceC).isLeft = (l2.check instanceC).isError) :
      ClassRel (.mk n1 ps1 l1) (.mk n2 i ps2 l2)

mutual

theorem rel_isLeft_eq_isError :
    ∀ (c1 : V1.Class) (c2 : V2.Class), ClassRel c1 c2 →
      ∀ instanceC : InstanceConstructor,
        (c1.validate instanceC).isLeft = (c2.validate instanceC).isError
  | .mk n1 ps1 l1, .mk n2 i ps2 l2, h, instanceC => by
      cases h with
      | mk _ _ _ _ _ _ _ hps hl =>
          have hany := relList_any ps1 ps2 hps instanceC
          rw [V1.validate_eq_v1, V2.validate_eq_v2]
          simp only [V1.Class.parentLefts, V2.Class.parentResults, V1.Class.parents,
            V2.Class.parents, V1.Class.laws, V2.Class.laws]
          by_cases hb : (ps2.map fun p => p.validate instanceC).any MaybeError.isError = true
          · have h1 : ((ps1.map fun p => p.validate instanceC).filter
                V1.ValidationResult.isLeft).length ≠ 0 :=
              (filter_length_ne_zero_iff_any _ _).mpr (hany.trans hb)
            have h2 : (MaybeError.foldConjoin
                (ps2.map fun p => p.validate instanceC)).isError = true := by
              rw [MaybeError.isError_foldConjoin]; exact hb
            rw [if_pos h1, if_pos h2, MaybeError.isError_conjoin, h2]
            rfl
          · have hbf : (ps2.map fun p => p.validate instanceC).any MaybeError.isError
                = false := Bool.eq_false_iff.mpr hb
            have h1 : ¬ ((ps1.map fun p => p.validate instanceC).filter
                V1.ValidationResult.isLeft).length ≠ 0 := by
              rw [filter_length_ne_zero_iff_any, hany, hbf]
              exact Bool.false_ne_true
            have h2 : ¬ (MaybeError.foldConjoin
                (ps2.map fun p => p.validate instanceC)).isError = true := by
              rw [MaybeError.isError_foldConjoin, hbf]
              exact Bool.false_ne_true
            rw [if_neg h1, if_neg h2]
            exact hl instanceC

theorem relList_any :
    ∀ (ps1 : List V1.Class) (ps2 : List V2.Class), List.Forall₂ ClassRel ps1 ps2 →
      ∀ instanceC : InstanceConstructor,
        (ps1.map fun p => p.validate instanceC).any V1.ValidationResult.isLeft
          = (ps2.map fun p => p.validate instanceC).any MaybeError.isError
  | [], [], .nil, _ => rfl
  | p1 :: ps1, p2 :: ps2, .cons hp hps, instanceC => by
      have h1 := rel_isLeft_eq_isError p1 p2 hp instanceC
      have h2 := relList_any ps1 ps2 hps instanceC
      simp only [List.map_cons, List.any_cons, h1, h2]

end

/-- Claim C9: the two implementations of `Class.validate` are
outcome-equivalent: whenever a Class of the first version and a Class of the
second version correspond (parents pointwise, and laws checks classifying
every candidate identically), the first version returns a `Left` exactly when
the second returns an error result, and when every parent validation succeeds
both versions return exactly the result of `laws.check(instance)`. -/
theorem versions_outcome_equivalent :
    ∀ (c1 : V1.Class) (c2 : V2.Class), ClassRel c1 c2 →
      ∀ instanceC : InstanceConstructor,
        ((c1.validate instanceC).isLeft = (c2.validate instanceC).isError) ∧
        ((∀ p ∈ c2.parents, (p.validate instanceC).isError = false) →
          c1.validate instanceC = c1.laws.check instanceC ∧
          c2.validate instanceC = c2.laws.check instanceC) := by
  intro c1 c2 h instanceC
  refine ⟨rel_isLeft_eq_isError c1 c2 h instanceC, ?_⟩
  intro hps
  cases h with
  | mk n1 ps1 l1 n2 i ps2 l2 hpsrel hl =>
      have hanyV2 : (ps2.map fun p => p.validate instanceC).any MaybeError.isError
          = false := by
        rw [List.any_eq_false]
        intro r hr
        rcases List.mem_map.mp hr with ⟨p, hpmem, rfl⟩
        have hf := hps p (by simpa [V2.Class.parents] using hpmem)
        simp [hf]
      have hanyV1 : (ps1.map fun p => p.validate instanceC).any
          V1.ValidationResult.isLeft = false :=
        (relList_any ps1 ps2 hpsrel instanceC).trans hanyV2
      constructor
      · have h1 : ¬ ((ps1.map fun p => p.validate instanceC).filter
            V1.ValidationResult.isLeft).length ≠ 0 := by
          rw [filter_length_ne_zero_iff_any, hanyV1]
          exact Bool.false_ne_true
        rw [V1.validate_eq_v1, if_neg (by
          simpa [V1.Class.parentLefts, V1.Class.parents] using h1)]
      · have h2 : ¬ ((V2.Class.mk n2 i ps2 l2).parentResults instanceC).isError = true := by
          simp only [V2.Class.parentResults, V2.Class.parents,
            MaybeError.isError_foldConjoin, hanyV2]
          exact Bool.false_ne_true
        rw [V2.validate_eq_v2, if_neg h2]

/-- A concrete first-version class with always-succeeding laws. -/
def sampleV1Good : V1.Class := .mk "A" [] ⟨fun _ => .Right⟩

/-- A concrete second-version class with always-succeeding laws. -/
def sampleV2Good : V2.Class := .mk "A" 4 [] ⟨fun _ => .success⟩

theorem sampleRel : ClassRel sampleV1Good sampleV2Good :=
  ClassRel.mk "A" [] ⟨fun _ => .Right⟩ "A" 4 [] ⟨fun _ => .success⟩
    List.Forall₂.nil (fun _ => rfl)

/-- Witness for claim C9: the correspondence applied to a concrete related
pair of classes with no parents. -/
theorem versions_outcome_equivalent_witness :
    ((sampleV1Good.validate instX).isLeft = (sampleV2Good.validate instX).isError) ∧
    (sampleV1Good.validate instX = sampleV1Good.laws.check instX ∧
      sampleV2Good.validate instX = sampleV2Good.laws.check instX) :=
  ⟨(versions_outcome_equivalent sampleV1Good sampleV2Good sampleRel instX).1,
    (versions_outcome_equivalent sampleV1Good sampleV2Good sampleRel instX).2
      (by simp [sampleV2Good, V2.Class.parents])⟩
